import Mathlib

/-!
Verification of the WebSocket frame codec in `src/server/src/frame.rs`.

The embedding models bytes as `Nat` (with explicit masking/`%` where the Rust
code relies on fixed-width integer behaviour), byte buffers as `List Nat`, and
the `impl Read` byte source of `FrameHeader::parse` as a `ByteStream`: a list
of bytes that are still available, together with a `fault` flag saying whether
the stream raises a (non-end-of-file) I/O error once its data is exhausted.
A stream with `fault = false` ends cleanly (reads at the end return no bytes /
`UnexpectedEof`), matching e.g. an `io::Cursor`; a stream with `fault = true`
models an underlying transport error surfacing at that point.
-/

namespace WebSocket

/-- `enum Data` (frame.rs lines 8-18): non-control opcodes.
`Reserved i` carries the raw value (`u8` in the source). -/
inductive Data where
  | Continue
  | Text
  | Binary
  | Reserved (i : Nat)
deriving DecidableEq

/-- `enum Control` (frame.rs lines 20-30): control opcodes. -/
inductive Control where
  | Close
  | Ping
  | Pong
  | Reserved (i : Nat)
deriving DecidableEq

/-- `enum OpCode` (frame.rs lines 32-38). -/
inductive OpCode where
  | Data (d : Data)
  | Control (c : Control)
deriving DecidableEq

/-- `impl From<OpCode> for u8` (frame.rs lines 40-58). -/
def OpCode.toByte : OpCode → Nat
  | .Data .Continue => 0
  | .Data .Text => 1
  | .Data .Binary => 2
  | .Data (.Reserved i) => i
  | .Control .Close => 8
  | .Control .Ping => 9
  | .Control .Pong => 10
  | .Control (.Reserved i) => i

/-- `impl From<u8> for OpCode` (frame.rs lines 60-79).  The Rust `match` with
range patterns is rendered as a chain of conditionals with the same semantics;
`none` models the `panic!("invalid opcode")` arm for bytes outside `[0, 15]`. -/
def OpCode.fromByte (byte : Nat) : Option OpCode :=
  if byte = 0 then some (.Data .Continue)
  else if byte = 1 then some (.Data .Text)
  else if byte = 2 then some (.Data .Binary)
  else if 3 ≤ byte ∧ byte ≤ 7 then some (.Data (.Reserved byte))
  else if byte = 8 then some (.Control .Close)
  else if byte = 9 then some (.Control .Ping)
  else if byte = 10 then some (.Control .Pong)
  else if 11 ≤ byte ∧ byte ≤ 15 then some (.Control (.Reserved byte))
  else none

/-- A 4-byte masking key, the `[u8; 4]` of the source. -/
structure MaskKey where
  k0 : Nat
  k1 : Nat
  k2 : Nat
  k3 : Nat
deriving DecidableEq

/-- Array indexing `mask[i]` for `i` in `[0, 3]` (all call sites first reduce
the index with `i & 3`, so the catch-all arm is exactly index `3`). -/
def MaskKey.get (k : MaskKey) : Nat → Nat
  | 0 => k.k0
  | 1 => k.k1
  | 2 => k.k2
  | _ => k.k3

/-- The four key bytes in order, as written to the wire. -/
def MaskKey.toList (k : MaskKey) : List Nat := [k.k0, k.k1, k.k2, k.k3]

/-- Rebuild a key from the 4 bytes read off the wire
(frame.rs lines 183-189 reads into a `[u8; 4]` buffer). -/
def MaskKey.ofList (bs : List Nat) : MaskKey :=
  ⟨bs.getD 0 0, bs.getD 1 0, bs.getD 2 0, bs.getD 3 0⟩

/-- `struct FrameHeader` (frame.rs lines 82-96). -/
structure FrameHeader where
  is_final : Bool
  rsv1 : Bool
  rsv2 : Bool
  rsv3 : Bool
  opcode : OpCode
  mask : Option MaskKey
deriving DecidableEq

/-- `enum LengthFormat` (frame.rs lines 98-103). -/
inductive LengthFormat where
  | U8 (b : Nat)
  | U16
  | U64
deriving DecidableEq

namespace LengthFormat

/-- `LengthFormat::for_length` (frame.rs lines 106-115).  The `length as u8`
cast is lossless here because `length < 126`. -/
def for_length (length : Nat) : LengthFormat :=
  if length < 126 then .U8 length
  else if length < 65536 then .U16
  else .U64

/-- `LengthFormat::length_byte` (frame.rs lines 117-124). -/
def length_byte : LengthFormat → Nat
  | .U8 b => b
  | .U16 => 126
  | .U64 => 127

/-- `LengthFormat::extra_bytes` (frame.rs lines 126-132). -/
def extra_bytes : LengthFormat → Nat
  | .U8 _ => 0
  | .U16 => 2
  | .U64 => 8

/-- `LengthFormat::for_byte` (frame.rs lines 134-140): match on
`byte & 0b0111_1111`, literal arms 126 and 127, catch-all `U8`. -/
def for_byte (byte : Nat) : LengthFormat :=
  if byte &&& 127 = 126 then .U16
  else if byte &&& 127 = 127 then .U64
  else .U8 (byte &&& 127)

end LengthFormat

/-- Error classification of the model's byte source, mirroring the only
distinction `parse` makes on `std::io::Error`: `ErrorKind::UnexpectedEof`
versus everything else (frame.rs lines 169-175). -/
inductive ReadErr where
  | unexpectedEof
  | other
deriving DecidableEq

/-- The `impl Read` byte source: the bytes still available, and whether the
stream fails with a non-EOF I/O error once those bytes run out. -/
structure ByteStream where
  data : List Nat
  fault : Bool
deriving DecidableEq

namespace ByteStream

/-- Model of a single `Read::read` call with an `n`-byte buffer
(frame.rs lines 150, 185): returns the first `min(n, available)` bytes, and
an I/O error only when no data is available and the stream is faulted. -/
def readRaw (s : ByteStream) (n : Nat) : Except ReadErr (List Nat) × ByteStream :=
  if s.data.isEmpty && s.fault then (.error .other, s)
  else (.ok (s.data.take n), ⟨s.data.drop n, s.fault⟩)

/-- Big-endian value of a byte list, as `byteorder`'s `NetworkEndian` reads. -/
def beUint (bs : List Nat) : Nat := bs.foldl (fun acc b => acc * 256 + b) 0

/-- Model of `byteorder`'s `read_uint::<NetworkEndian>(n)` (frame.rs line 169),
which reads exactly `n` bytes via `read_exact` semantics: a short source is
drained and reported as `UnexpectedEof` (or the stream's own error if it is
faulted rather than cleanly ended). -/
def readUint (s : ByteStream) (n : Nat) : Except ReadErr Nat × ByteStream :=
  if n ≤ s.data.length then (.ok (beUint (s.data.take n)), ⟨s.data.drop n, s.fault⟩)
  else if s.fault then (.error .other, ⟨[], s.fault⟩)
  else (.error .unexpectedEof, ⟨[], s.fault⟩)

end ByteStream

/-- Outcome of `FrameHeader::parse`: `ok r s` is `Ok(r)` together with the
state the byte source was left in; `ioErr` is an `Err(_)` returned to the
caller; `panic` is the `panic!` arm of `OpCode::from`. -/
inductive ParseResult where
  | ok (r : Option (FrameHeader × Nat)) (s : ByteStream)
  | ioErr
  | panic
deriving DecidableEq

namespace FrameHeader

/-- The mask-key phase of `FrameHeader::parse` (frame.rs lines 183-202): with
the header bits, opcode and length already in hand, read the 4 mask-key bytes
when the mask flag was set (a short read yields `Ok(None)`, a read error an
`Err`), and assemble the resulting header. -/
def parseMask (is_final rsv1 rsv2 rsv3 : Bool) (opcode : OpCode) (length : Nat)
    (s2 : ByteStream) (masked : Bool) : ParseResult :=
  if masked then
    match s2.readRaw 4 with
    | (.error _, _) => .ioErr
    | (.ok mask_bytes, s3) =>
      if mask_bytes.length ≠ 4 then .ok none s3
      else .ok (some (⟨is_final, rsv1, rsv2, rsv3, opcode,
                       some (MaskKey.ofList mask_bytes)⟩, length)) s3
  else .ok (some (⟨is_final, rsv1, rsv2, rsv3, opcode, none⟩, length)) s2

/-- The body of `FrameHeader::parse` after the 2 fixed header bytes are in
hand (frame.rs lines 153-181): extract the flag bits and opcode from the
first byte (the `panic!` arm of `OpCode::from` is the `.panic` result), the
mask flag and 7-bit length field from the second, read the 2- or 8-byte
length extension when the field is 126 or 127 (`UnexpectedEof` yields
`Ok(None)`, any other error an `Err`), then continue with the mask phase.
The Rust code matches on `read_uint`'s result only inside the
`length_length > 0` branch; the direct-length branch is injected here as an
`.ok` into the same match, which is semantically identical. -/
def parseAfterHead (first second : Nat) (s1 : ByteStream) : ParseResult :=
  match OpCode.fromByte (first &&& 15) with
  | none => .panic
  | some opcode =>
    match (if 0 < (LengthFormat.for_byte (second &&& 127)).extra_bytes
           then s1.readUint (LengthFormat.for_byte (second &&& 127)).extra_bytes
           else (.ok (second &&& 127), s1) : Except ReadErr Nat × ByteStream) with
    | (.error .unexpectedEof, s2) => .ok none s2
    | (.error .other, _) => .ioErr
    | (.ok length, s2) =>
      parseMask (first &&& 128 != 0) (first &&& 64 != 0) (first &&& 32 != 0)
        (first &&& 16 != 0) opcode length s2 (second &&& 128 != 0)

/-- `FrameHeader::parse` (frame.rs lines 148-203): read the 2 fixed header
bytes (fewer than 2 yields `Ok(None)`, a read error an `Err`) and hand them
to the rest of the function. -/
def parse (input : ByteStream) : ParseResult :=
  match input.readRaw 2 with
  | (.error _, _) => .ioErr
  | (.ok head, s1) =>
    if head.length ≠ 2 then .ok none s1
    else parseAfterHead (head.getD 0 0) (head.getD 1 0) s1

end FrameHeader

/-- `n` bytes of `v` in big-endian order, as `byteorder`'s
`write_u16`/`write_u64` emit. -/
def natToBeBytes : Nat → Nat → List Nat
  | 0, _ => []
  | n + 1, v => natToBeBytes n (v / 256) ++ [v % 256]

namespace FrameHeader

/-- `FrameHeader::format` (frame.rs lines 205-229), as the list of bytes it
writes.  The `length as u16` cast is modelled by `% 2^16` (guarded by the
`U16` selection), and the `u64` argument of `write_u64` by `% 2^64`. -/
def format (h : FrameHeader) (length : Nat) : List Nat :=
  let code := h.opcode.toByte
  let one := code ||| (if h.is_final then 128 else 0)
  let length_format := LengthFormat.for_length length
  let two := length_format.length_byte ||| (if h.mask.isSome then 128 else 0)
  [one, two]
    ++ (match length_format with
        | .U8 _ => []
        | .U16 => natToBeBytes 2 (length % 2 ^ 16)
        | .U64 => natToBeBytes 8 (length % 2 ^ 64))
    ++ (match h.mask with
        | some mask => mask.toList
        | none => [])

/-- `FrameHeader::len` (frame.rs lines 231-233). -/
def len (h : FrameHeader) (length : Nat) : Nat :=
  2 + (LengthFormat.for_length length).extra_bytes + (if h.mask.isSome then 4 else 0)

end FrameHeader

/-- The loop body of `apply_mask` (frame.rs lines 236-240) with the running
byte index made explicit: byte `i` is XORed with `mask[i & 3]`. -/
def applyMaskFrom (mask : MaskKey) : Nat → List Nat → List Nat
  | _, [] => []
  | i, b :: rest => (b ^^^ mask.get (i &&& 3)) :: applyMaskFrom mask (i + 1) rest

/-- `pub fn apply_mask(buf, mask)` (frame.rs lines 236-240), returning the
updated buffer instead of mutating in place. -/
def apply_mask (buf : List Nat) (mask : MaskKey) : List Nat :=
  applyMaskFrom mask 0 buf

/-- `struct Frame` (frame.rs lines 242-246). -/
structure Frame where
  header : FrameHeader
  payload : List Nat
deriving DecidableEq

namespace Frame

/-- `Frame::message` (frame.rs lines 249-261). -/
def message (payload : List Nat) (opcode : OpCode) : Frame :=
  ⟨⟨true, false, false, false, opcode, none⟩, payload⟩

/-- `Frame::apply_mask` (frame.rs lines 263-267): `take` the key (clearing it
from the header) and mask the payload with it, if present. -/
def applyMaskSelf (f : Frame) : Frame :=
  match f.header.mask with
  | some mask => ⟨{ f.header with mask := none }, apply_mask f.payload mask⟩
  | none => f

/-- `Frame::format` (frame.rs lines 269-274), as the bytes written: the header
formatted with the payload length, then the (masked, when a key is present)
payload. -/
def format (f : Frame) : List Nat :=
  f.header.format f.payload.length ++ (f.applyMaskSelf).payload

/-- `Frame::len` (frame.rs lines 276-280). -/
def len (f : Frame) : Nat :=
  f.header.len f.payload.length + f.payload.length

end Frame

/-! ### Helper lemmas -/

theorem and_fifteen_lt (b : Nat) : b &&& 15 < 16 :=
  Nat.lt_succ_of_le Nat.and_le_right

theorem fromByte_isSome_of_lt : ∀ b, b < 16 → (OpCode.fromByte b).isSome = true := by
  decide

theorem fromByte_and15 (b : Nat) : ∃ op, OpCode.fromByte (b &&& 15) = some op :=
  Option.isSome_iff_exists.mp (fromByte_isSome_of_lt _ (and_fifteen_lt b))

theorem fromByte_and15_ne_none (b : Nat) : OpCode.fromByte (b &&& 15) ≠ none := by
  obtain ⟨op, hop⟩ := fromByte_and15 b
  simp [hop]

theorem or128_and128 : ∀ b, b < 128 → (b ||| 128) &&& 128 = 128 := by
  decide

theorem or128_and127 : ∀ b, b < 128 → (b ||| 128) &&& 127 = b := by
  decide

theorem lt128_and128 : ∀ b, b < 128 → b &&& 128 = 0 := by
  decide

theorem lt128_and127 : ∀ b, b < 128 → b &&& 127 = b := by
  decide

theorem for_length_u8 {L : Nat} (h : L < 126) :
    LengthFormat.for_length L = .U8 L := by
  unfold LengthFormat.for_length
  rw [if_pos h]

theorem for_length_u16 {L : Nat} (h1 : 126 ≤ L) (h2 : L < 65536) :
    LengthFormat.for_length L = .U16 := by
  unfold LengthFormat.for_length
  rw [if_neg (by omega), if_pos h2]

theorem for_length_u64 {L : Nat} (h : 65536 ≤ L) :
    LengthFormat.for_length L = .U64 := by
  unfold LengthFormat.for_length
  rw [if_neg (by omega), if_neg (by omega)]

theorem natToBeBytes_length (n v : Nat) : (natToBeBytes n v).length = n := by
  induction n generalizing v with
  | zero => rfl
  | succ n ih => simp [natToBeBytes, ih]

theorem beFold_natToBeBytes (n : Nat) :
    ∀ v a, (natToBeBytes n v).foldl (fun acc b => acc * 256 + b) a
      = a * 256 ^ n + v % 256 ^ n := by
  induction n with
  | zero => intro v a; simp [natToBeBytes, Nat.mod_one]
  | succ n ih =>
    intro v a
    show (natToBeBytes n (v / 256) ++ [v % 256]).foldl (fun acc b => acc * 256 + b) a = _
    rw [List.foldl_append, ih]
    show (a * 256 ^ n + v / 256 % 256 ^ n) * 256 + v % 256
      = a * 256 ^ (n + 1) + v % 256 ^ (n + 1)
    have h1 : v % 256 ^ (n + 1) = v % 256 + 256 * (v / 256 % 256 ^ n) := by
      rw [pow_succ, mul_comm (256 ^ n) 256]
      exact Nat.mod_mul
    rw [h1, pow_succ]
    ring

theorem beUint_natToBeBytes (n v : Nat) :
    ByteStream.beUint (natToBeBytes n v) = v % 256 ^ n := by
  have := beFold_natToBeBytes n v 0
  simpa [ByteStream.beUint] using this

theorem readUint_beBytes (n v : Nat) (tail : List Nat) (f : Bool) :
    ByteStream.readUint ⟨natToBeBytes n v ++ tail, f⟩ n
      = (.ok (v % 256 ^ n), ⟨tail, f⟩) := by
  have hlen : (natToBeBytes n v).length = n := natToBeBytes_length n v
  unfold ByteStream.readUint
  rw [if_pos (by simp [hlen]), List.take_left' hlen, List.drop_left' hlen,
    beUint_natToBeBytes]

theorem ofList_toList (k : MaskKey) : MaskKey.ofList k.toList = k := rfl

theorem applyMaskFrom_involutive (mask : MaskKey) :
    ∀ (buf : List Nat) (i : Nat),
      applyMaskFrom mask i (applyMaskFrom mask i buf) = buf := by
  intro buf
  induction buf with
  | nil => intro i; rfl
  | cons b rest ih =>
    intro i
    simp [applyMaskFrom, ih, Nat.xor_assoc]

theorem applyMaskFrom_length (mask : MaskKey) :
    ∀ (buf : List Nat) (i : Nat), (applyMaskFrom mask i buf).length = buf.length := by
  intro buf
  induction buf with
  | nil => intro i; rfl
  | cons b rest ih => intro i; simp [applyMaskFrom, ih]

theorem applyMaskFrom_getD (mask : MaskKey) :
    ∀ (buf : List Nat) (j i : Nat), i < buf.length →
      (applyMaskFrom mask j buf).getD i 0 = buf.getD i 0 ^^^ mask.get ((j + i) &&& 3) := by
  intro buf
  induction buf with
  | nil => intro j i h; simp at h
  | cons b rest ih =>
    intro j i h
    cases i with
    | zero => simp [applyMaskFrom]
    | succ i =>
      have : j + 1 + i = j + (i + 1) := by omega
      simp only [applyMaskFrom, List.getD_cons_succ]
      rw [ih (j + 1) i (by simpa using Nat.lt_of_succ_lt_succ h), this]

theorem and_three_eq_mod_four (i : Nat) : i &&& 3 = i % 4 := by
  have := Nat.and_pow_two_sub_one_eq_mod i 2
  norm_num at this
  exact this

theorem and127_idem (x : Nat) : (x &&& 127) &&& 127 = x &&& 127 := by
  rw [Nat.and_assoc]
  rfl

theorem parse_cons (a b : Nat) (t : List Nat) (f : Bool) :
    FrameHeader.parse ⟨a :: b :: t, f⟩ = FrameHeader.parseAfterHead a b ⟨t, f⟩ := rfl

theorem readRaw_clean (u : List Nat) (n : Nat) :
    ByteStream.readRaw ⟨u, false⟩ n = (.ok (u.take n), ⟨u.drop n, false⟩) := by
  simp [ByteStream.readRaw]

theorem readUint_short (u : List Nat) (n : Nat) (hn : u.length < n) :
    ByteStream.readUint ⟨u, false⟩ n = (.error .unexpectedEof, ⟨[], false⟩) := by
  unfold ByteStream.readUint
  rw [if_neg (show ¬ n ≤ u.length by omega)]
  rfl

theorem readUint_fault (u : List Nat) (n : Nat) (hn : u.length < n) :
    ByteStream.readUint ⟨u, true⟩ n = (.error .other, ⟨[], true⟩) := by
  unfold ByteStream.readUint
  rw [if_neg (show ¬ n ≤ u.length by omega)]
  rfl

theorem readUint_eof_state (s : ByteStream) (n : Nat) (s2 : ByteStream)
    (h : s.readUint n = (.error .unexpectedEof, s2)) : s2.data = [] := by
  unfold ByteStream.readUint at h
  split at h
  · simp at h
  · split at h
    · simp at h
    · injection h with h1 h2
      subst h2
      rfl

theorem parseMask_unmasked (fin r1 r2 r3 : Bool) (op : OpCode) (L : Nat)
    (s2 : ByteStream) :
    FrameHeader.parseMask fin r1 r2 r3 op L s2 false
      = .ok (some (⟨fin, r1, r2, r3, op, none⟩, L)) s2 := rfl

theorem parseMask_full (fin r1 r2 r3 : Bool) (op : OpCode) (L : Nat)
    (k : MaskKey) (rest : List Nat) (f : Bool) :
    FrameHeader.parseMask fin r1 r2 r3 op L ⟨k.toList ++ rest, f⟩ true
      = .ok (some (⟨fin, r1, r2, r3, op, some k⟩, L)) ⟨rest, f⟩ := rfl

theorem parseMask_short (fin r1 r2 r3 : Bool) (op : OpCode) (L : Nat)
    (u : List Nat) (hu : u.length < 4) :
    FrameHeader.parseMask fin r1 r2 r3 op L ⟨u, false⟩ true = .ok none ⟨[], false⟩ := by
  unfold FrameHeader.parseMask
  rw [if_pos rfl, readRaw_clean,
    List.take_of_length_le (show u.length ≤ 4 by omega),
    List.drop_eq_nil_of_le (show u.length ≤ 4 by omega)]
  simp [show u.length ≠ 4 by omega]

theorem parseMask_ne_panic (fin r1 r2 r3 : Bool) (op : OpCode) (L : Nat)
    (s2 : ByteStream) (mb : Bool) :
    FrameHeader.parseMask fin r1 r2 r3 op L s2 mb ≠ .panic := by
  unfold FrameHeader.parseMask
  split
  · split
    · simp
    · split <;> simp
  · simp

theorem parseMask_ok_none (fin r1 r2 r3 : Bool) (op : OpCode) (L : Nat)
    (s2 : ByteStream) (mb : Bool) (s3 : ByteStream)
    (h : FrameHeader.parseMask fin r1 r2 r3 op L s2 mb = .ok none s3) :
    s3.data = [] := by
  unfold FrameHeader.parseMask at h
  split at h
  · split at h
    · simp at h
    · rename_i mask_bytes s4 heq
      split at h
      · rename_i hlen
        injection h with h1 h2
        subst h2
        unfold ByteStream.readRaw at heq
        split at heq
        · simp at heq
        · injection heq with he1 he2
          injection he1 with he1
          subst he1
          subst he2
          rw [List.length_take] at hlen
          show List.drop 4 s2.data = []
          exact List.drop_eq_nil_of_le (by omega)
      · simp at h
  · simp at h

theorem parseAfterHead_direct (a b : Nat) (s1 : ByteStream) (op : OpCode)
    (hop : OpCode.fromByte (a &&& 15) = some op)
    (hn : (LengthFormat.for_byte (b &&& 127)).extra_bytes = 0) :
    FrameHeader.parseAfterHead a b s1
      = FrameHeader.parseMask (a &&& 128 != 0) (a &&& 64 != 0) (a &&& 32 != 0)
          (a &&& 16 != 0) op (b &&& 127) s1 (b &&& 128 != 0) := by
  unfold FrameHeader.parseAfterHead
  rw [hop, hn]
  rfl

theorem parseAfterHead_ext_ok (a b n L2 : Nat) (s1 s2 : ByteStream) (op : OpCode)
    (hop : OpCode.fromByte (a &&& 15) = some op)
    (hn : (LengthFormat.for_byte (b &&& 127)).extra_bytes = n) (h0 : 0 < n)
    (hru : s1.readUint n = (.ok L2, s2)) :
    FrameHeader.parseAfterHead a b s1
      = FrameHeader.parseMask (a &&& 128 != 0) (a &&& 64 != 0) (a &&& 32 != 0)
          (a &&& 16 != 0) op L2 s2 (b &&& 128 != 0) := by
  unfold FrameHeader.parseAfterHead
  rw [hop, hn, if_pos h0, hru]

theorem parseAfterHead_ext_eof (a b n : Nat) (s1 s2 : ByteStream) (op : OpCode)
    (hop : OpCode.fromByte (a &&& 15) = some op)
    (hn : (LengthFormat.for_byte (b &&& 127)).extra_bytes = n) (h0 : 0 < n)
    (hru : s1.readUint n = (.error .unexpectedEof, s2)) :
    FrameHeader.parseAfterHead a b s1 = .ok none s2 := by
  unfold FrameHeader.parseAfterHead
  rw [hop, hn, if_pos h0, hru]

theorem parseAfterHead_ext_err (a b n : Nat) (s1 s2 : ByteStream) (op : OpCode)
    (hop : OpCode.fromByte (a &&& 15) = some op)
    (hn : (LengthFormat.for_byte (b &&& 127)).extra_bytes = n) (h0 : 0 < n)
    (hru : s1.readUint n = (.error .other, s2)) :
    FrameHeader.parseAfterHead a b s1 = .ioErr := by
  unfold FrameHeader.parseAfterHead
  rw [hop, hn, if_pos h0, hru]

theorem parseAfterHead_ne_panic (a b : Nat) (s1 : ByteStream) :
    FrameHeader.parseAfterHead a b s1 ≠ .panic := by
  obtain ⟨op, hop⟩ := fromByte_and15 a
  unfold FrameHeader.parseAfterHead
  rw [hop]
  split
  · rename_i heq
    simp at heq
  · rename_i opcode heq
    injection heq with heq2
    subst heq2
    split
    · simp
    · simp
    · exact parseMask_ne_panic _ _ _ _ _ _ _ _

theorem parseAfterHead_ok_none (a b : Nat) (s1 : ByteStream) (s3 : ByteStream)
    (h : FrameHeader.parseAfterHead a b s1 = .ok none s3) : s3.data = [] := by
  obtain ⟨op, hop⟩ := fromByte_and15 a
  rcases hfb : LengthFormat.for_byte (b &&& 127) with lb | _ | _
  · rw [parseAfterHead_direct a b s1 op hop (by rw [hfb]; rfl)] at h
    exact parseMask_ok_none _ _ _ _ _ _ _ _ _ h
  · rcases hru : s1.readUint 2 with ⟨e | L2, s2⟩
    · cases e
      · rw [parseAfterHead_ext_eof a b 2 s1 s2 op hop (by rw [hfb]; rfl) (by omega) hru] at h
        injection h with h1 h2
        subst h2
        exact readUint_eof_state s1 2 _ hru
      · rw [parseAfterHead_ext_err a b 2 s1 s2 op hop (by rw [hfb]; rfl) (by omega) hru] at h
        simp at h
    · rw [parseAfterHead_ext_ok a b 2 L2 s1 s2 op hop (by rw [hfb]; rfl) (by omega) hru] at h
      exact parseMask_ok_none _ _ _ _ _ _ _ _ _ h
  · rcases hru : s1.readUint 8 with ⟨e | L2, s2⟩
    · cases e
      · rw [parseAfterHead_ext_eof a b 8 s1 s2 op hop (by rw [hfb]; rfl) (by omega) hru] at h
        injection h with h1 h2
        subst h2
        exact readUint_eof_state s1 8 _ hru
      · rw [parseAfterHead_ext_err a b 8 s1 s2 op hop (by rw [hfb]; rfl) (by omega) hru] at h
        simp at h
    · rw [parseAfterHead_ext_ok a b 8 L2 s1 s2 op hop (by rw [hfb]; rfl) (by omega) hru] at h
      exact parseMask_ok_none _ _ _ _ _ _ _ _ _ h

/-- The data-model invariant on opcodes: a `Reserved` payload lies in the
range its enum variant reserves ([3,7] for data, [11,15] for control). -/
def OpCode.wf : OpCode → Prop
  | .Data (.Reserved i) => 3 ≤ i ∧ i ≤ 7
  | .Control (.Reserved i) => 11 ≤ i ∧ i ≤ 15
  | _ => True

/-! ### Claims -/

/-- Formatting a header for length `L < 2^64` and parsing the result consumes
exactly the header bytes and recovers the declared length `L`, for every
header (the parsed header itself is existential here: reserved bits and
out-of-range opcodes need not survive, see the round-trip claims). -/
theorem parse_format_exists (h : FrameHeader) (L : Nat) (hL : L < 2 ^ 64)
    (rest : List Nat) (f : Bool) :
    ∃ h2, FrameHeader.parse ⟨h.format L ++ rest, f⟩ = .ok (some (h2, L)) ⟨rest, f⟩ := by
  obtain ⟨op, hop⟩ :=
    fromByte_and15 (h.opcode.toByte ||| (if h.is_final then 128 else 0))
  rcases hm : h.mask with _ | k
  · by_cases h1 : L < 126
    · have hf : h.format L ++ rest
          = (h.opcode.toByte ||| (if h.is_final then 128 else 0)) :: L :: rest := by
        simp [FrameHeader.format, for_length_u8 h1, hm, LengthFormat.length_byte]
      exact ⟨_, by
        rw [hf, parse_cons,
          parseAfterHead_direct _ _ _ op hop
            (by unfold LengthFormat.for_byte
                rw [and127_idem, lt128_and127 L (by omega),
                  if_neg (by omega : ¬ L = 126), if_neg (by omega : ¬ L = 127)]
                rfl),
          lt128_and127 L (by omega),
          show (L &&& 128 != 0) = false by simp [lt128_and128 L (by omega)]]
        exact parseMask_unmasked _ _ _ _ op L _⟩
    · by_cases h2 : L < 65536
      · have hf : h.format L ++ rest
            = (h.opcode.toByte ||| (if h.is_final then 128 else 0)) :: 126
                :: (natToBeBytes 2 (L % 2 ^ 16) ++ rest) := by
          simp [FrameHeader.format, for_length_u16 (by omega) h2, hm,
            LengthFormat.length_byte]
        have hL2 : (L % 2 ^ 16) % 256 ^ 2 = L := by
          have e1 : (2 : Nat) ^ 16 = 65536 := by norm_num
          have e2 : (256 : Nat) ^ 2 = 65536 := by norm_num
          rw [e1, e2]
          omega
        exact ⟨_, by
          rw [hf, parse_cons,
            parseAfterHead_ext_ok _ 126 2 _ _ _ op hop rfl (by omega)
              (readUint_beBytes 2 (L % 2 ^ 16) rest f),
            hL2, show ((126 : Nat) &&& 128 != 0) = false from rfl]
          exact parseMask_unmasked _ _ _ _ op L _⟩
      · have hf : h.format L ++ rest
            = (h.opcode.toByte ||| (if h.is_final then 128 else 0)) :: 127
                :: (natToBeBytes 8 (L % 2 ^ 64) ++ rest) := by
          have h64 : LengthFormat.for_length L = .U64 := for_length_u64 (by omega)
          simp [FrameHeader.format, h64, hm, LengthFormat.length_byte]
        have hL2 : (L % 2 ^ 64) % 256 ^ 8 = L := by
          have e1 : (2 : Nat) ^ 64 = 18446744073709551616 := by norm_num
          have e2 : (256 : Nat) ^ 8 = 18446744073709551616 := by norm_num
          rw [e1, e2]
          omega
        exact ⟨_, by
          rw [hf, parse_cons,
            parseAfterHead_ext_ok _ 127 8 _ _ _ op hop rfl (by omega)
              (readUint_beBytes 8 (L % 2 ^ 64) rest f),
            hL2, show ((127 : Nat) &&& 128 != 0) = false from rfl]
          exact parseMask_unmasked _ _ _ _ op L _⟩
  · by_cases h1 : L < 126
    · have hf : h.format L ++ rest
          = (h.opcode.toByte ||| (if h.is_final then 128 else 0)) :: (L ||| 128)
              :: (k.toList ++ rest) := by
        simp [FrameHeader.format, for_length_u8 h1, hm, LengthFormat.length_byte]
      exact ⟨_, by
        rw [hf, parse_cons,
          parseAfterHead_direct _ _ _ op hop
            (by rw [or128_and127 L (by omega)]
                unfold LengthFormat.for_byte
                rw [lt128_and127 L (by omega),
                  if_neg (by omega : ¬ L = 126), if_neg (by omega : ¬ L = 127)]
                rfl),
          or128_and127 L (by omega),
          show ((L ||| 128) &&& 128 != 0) = true by simp [or128_and128 L (by omega)]]
        exact parseMask_full _ _ _ _ op L k rest f⟩
    · by_cases h2 : L < 65536
      · have hf : h.format L ++ rest
            = (h.opcode.toByte ||| (if h.is_final then 128 else 0)) :: (126 ||| 128)
                :: (natToBeBytes 2 (L % 2 ^ 16) ++ (k.toList ++ rest)) := by
          simp [FrameHeader.format, for_length_u16 (by omega) h2, hm,
            LengthFormat.length_byte]
        have hL2 : (L % 2 ^ 16) % 256 ^ 2 = L := by
          have e1 : (2 : Nat) ^ 16 = 65536 := by norm_num
          have e2 : (256 : Nat) ^ 2 = 65536 := by norm_num
          rw [e1, e2]
          omega
        exact ⟨_, by
          rw [hf, parse_cons,
            parseAfterHead_ext_ok _ (126 ||| 128) 2 _ _ _ op hop (by decide) (by omega)
              (readUint_beBytes 2 (L % 2 ^ 16) (k.toList ++ rest) f),
            hL2, show (((126 : Nat) ||| 128) &&& 128 != 0) = true from rfl]
          exact parseMask_full _ _ _ _ op L k rest f⟩
      · have hf : h.format L ++ rest
            = (h.opcode.toByte ||| (if h.is_final then 128 else 0)) :: (127 ||| 128)
                :: (natToBeBytes 8 (L % 2 ^ 64) ++ (k.toList ++ rest)) := by
          have h64 : LengthFormat.for_length L = .U64 := for_length_u64 (by omega)
          simp [FrameHeader.format, h64, hm, LengthFormat.length_byte]
        have hL2 : (L % 2 ^ 64) % 256 ^ 8 = L := by
          have e1 : (2 : Nat) ^ 64 = 18446744073709551616 := by norm_num
          have e2 : (256 : Nat) ^ 8 = 18446744073709551616 := by norm_num
          rw [e1, e2]
          omega
        exact ⟨_, by
          rw [hf, parse_cons,
            parseAfterHead_ext_ok _ (127 ||| 128) 8 _ _ _ op hop (by decide) (by omega)
              (readUint_beBytes 8 (L % 2 ^ 64) (k.toList ++ rest) f),
            hL2, show (((127 : Nat) ||| 128) &&& 128 != 0) = true from rfl]
          exact parseMask_full _ _ _ _ op L k rest f⟩

/-- Claim C4: `LengthFormat::for_length` selects U8 iff `L < 126`, U16 iff
`126 ≤ L < 65536`, U64 otherwise (within the u64 range), and formatting a
header for length `L` followed by parsing recovers the declared length
exactly `L`. -/
theorem frame_c4_length_codec (L : Nat) (hL : L < 2 ^ 64) :
    ((∃ b, LengthFormat.for_length L = .U8 b) ↔ L < 126)
    ∧ (LengthFormat.for_length L = .U16 ↔ 126 ≤ L ∧ L < 65536)
    ∧ (LengthFormat.for_length L = .U64 ↔ 65536 ≤ L)
    ∧ ∀ h : FrameHeader, ∃ h2, FrameHeader.parse ⟨h.format L, false⟩
        = .ok (some (h2, L)) ⟨[], false⟩ := by
  refine ⟨⟨?_, fun h1 => ⟨L, for_length_u8 h1⟩⟩, ⟨?_, fun ha => for_length_u16 ha.1 ha.2⟩,
    ⟨?_, fun hge => for_length_u64 hge⟩, ?_⟩
  · rintro ⟨b, hb⟩
    by_contra hc
    by_cases h2 : L < 65536
    · rw [for_length_u16 (by omega) h2] at hb
      exact absurd hb (by simp)
    · have h64 : LengthFormat.for_length L = .U64 := for_length_u64 (by omega)
      rw [h64] at hb
      exact absurd hb (by simp)
  · intro hb
    by_cases h1 : L < 126
    · rw [for_length_u8 h1] at hb
      exact absurd hb (by simp)
    · by_cases h2 : L < 65536
      · exact ⟨by omega, h2⟩
      · have h64 : LengthFormat.for_length L = .U64 := for_length_u64 (by omega)
        rw [h64] at hb
        exact absurd hb (by simp)
  · intro hb
    by_cases h1 : L < 126
    · rw [for_length_u8 h1] at hb
      exact absurd hb (by simp)
    · by_cases h2 : L < 65536
      · rw [for_length_u16 (by omega) h2] at hb
        exact absurd hb (by simp)
      · omega
  · intro h
    have h3 := parse_format_exists h L hL [] false
    simpa using h3

theorem frame_c4_witness :
    (300 : Nat) < 2 ^ 64
    ∧ (LengthFormat.for_length 300 = .U16 ↔ 126 ≤ 300 ∧ 300 < 65536) :=
  ⟨by norm_num, (frame_c4_length_codec 300 (by norm_num)).2.1⟩

/-- Counterexample to claim C2 as stated: on the concrete input
`[0x81, 0x85, 0x01]` (masked text frame announcing length 5, mask key
truncated after 1 of 4 bytes, stream cleanly ended) `FrameHeader::parse`
returns `Ok(None)` — exactly the benign no-frame result, not a hard error. -/
theorem frame_c2_counterexample :
    FrameHeader.parse ⟨[129, 133, 1], false⟩ = .ok none ⟨[], false⟩
    ∧ FrameHeader.parse ⟨[129, 133, 1], false⟩ ≠ .ioErr := by
  decide

/-- Claim C2 (amended): when the mask flag is set and the cleanly-ended
source yields fewer than the 4 mask-key bytes, `FrameHeader::parse` returns
`Ok(None)` — the same no-frame result as a short read of the initial 2 header
bytes, not a distinct hard error. -/
theorem frame_c2_amended (b0 lb : Nat) (mp : List Nat)
    (hlb : lb < 126) (hmp : mp.length < 4) :
    FrameHeader.parse ⟨b0 :: (lb ||| 128) :: mp, false⟩ = .ok none ⟨[], false⟩ := by
  obtain ⟨op, hop⟩ := fromByte_and15 b0
  rw [parse_cons,
    parseAfterHead_direct _ _ _ op hop
      (by rw [or128_and127 lb (by omega)]
          unfold LengthFormat.for_byte
          rw [lt128_and127 lb (by omega),
            if_neg (by omega : ¬ lb = 126), if_neg (by omega : ¬ lb = 127)]
          rfl),
    show ((lb ||| 128) &&& 128 != 0) = true by simp [or128_and128 lb (by omega)]]
  exact parseMask_short _ _ _ _ op _ mp hmp

theorem frame_c2_witness :
    (5 : Nat) < 126 ∧ ([1] : List Nat).length < 4
    ∧ FrameHeader.parse ⟨129 :: (5 ||| 128) :: [1], false⟩ = .ok none ⟨[], false⟩ :=
  ⟨by decide, by decide, frame_c2_amended 129 5 [1] (by decide) (by decide)⟩

/-- Claim C9: end-of-stream is not an error — `parse` yields `Ok(None)` on a
clean short read of the 2 fixed header bytes and on clean exhaustion midway
through the 2- or 8-byte length extension, while a genuine I/O failure in
either phase is surfaced as an `Err`. -/
theorem frame_c9_eof_not_error :
    (∀ d : List Nat, d.length < 2 →
        FrameHeader.parse ⟨d, false⟩ = .ok none ⟨[], false⟩)
    ∧ FrameHeader.parse ⟨[], true⟩ = .ioErr
    ∧ (∀ (b0 : Nat) (ext : List Nat), ext.length < 2 →
        FrameHeader.parse ⟨b0 :: 126 :: ext, false⟩ = .ok none ⟨[], false⟩)
    ∧ (∀ (b0 : Nat) (ext : List Nat), ext.length < 8 →
        FrameHeader.parse ⟨b0 :: 127 :: ext, false⟩ = .ok none ⟨[], false⟩)
    ∧ (∀ (b0 : Nat) (ext : List Nat), ext.length < 2 →
        FrameHeader.parse ⟨b0 :: 126 :: ext, true⟩ = .ioErr) := by
  refine ⟨?_, rfl, ?_, ?_, ?_⟩
  · intro d hd
    rcases d with _ | ⟨x, _ | ⟨y, t⟩⟩
    · rfl
    · rfl
    · simp at hd
      omega
  · intro b0 ext hx
    obtain ⟨op, hop⟩ := fromByte_and15 b0
    rw [parse_cons]
    exact parseAfterHead_ext_eof _ _ 2 _ _ op hop rfl (by omega)
      (readUint_short ext 2 hx)
  · intro b0 ext hx
    obtain ⟨op, hop⟩ := fromByte_and15 b0
    rw [parse_cons]
    exact parseAfterHead_ext_eof _ _ 8 _ _ op hop rfl (by omega)
      (readUint_short ext 8 hx)
  · intro b0 ext hx
    obtain ⟨op, hop⟩ := fromByte_and15 b0
    have hpc : FrameHeader.parse ⟨b0 :: 126 :: ext, true⟩
        = FrameHeader.parseAfterHead b0 126 ⟨ext, true⟩ := rfl
    rw [hpc]
    exact parseAfterHead_ext_err _ _ 2 _ _ op hop rfl (by omega)
      (readUint_fault ext 2 hx)

theorem frame_c9_witness :
    (([129] : List Nat).length < 2
      ∧ FrameHeader.parse ⟨[129], false⟩ = .ok none ⟨[], false⟩)
    ∧ (([7] : List Nat).length < 2
      ∧ FrameHeader.parse ⟨[129, 126, 7], false⟩ = .ok none ⟨[], false⟩) :=
  ⟨⟨by decide, frame_c9_eof_not_error.1 [129] (by decide)⟩,
   ⟨by decide, frame_c9_eof_not_error.2.2.1 129 [7] (by decide)⟩⟩



/-- Claim C5: for every length `L` and both mask states, `FrameHeader::len`
equals `2 + extension_bytes(L) + (4 if the mask is present else 0)` with
`extension_bytes` being 0, 2 or 8 by the length-format class, and
`FrameHeader::format` writes exactly that many bytes. -/
theorem frame_c5_header_len (h : FrameHeader) (L : Nat) :
    h.len L = 2 + (if L < 126 then 0 else if L < 65536 then 2 else 8)
      + (if h.mask.isSome then 4 else 0)
    ∧ (h.format L).length = h.len L := by
  have hext : (LengthFormat.for_length L).extra_bytes
      = (if L < 126 then 0 else if L < 65536 then 2 else 8) := by
    by_cases h1 : L < 126
    · rw [for_length_u8 h1]; simp [LengthFormat.extra_bytes, h1]
    · by_cases h2 : L < 65536
      · rw [for_length_u16 (by omega) h2]; simp [LengthFormat.extra_bytes, h1, h2]
      · rw [for_length_u64 (by omega)]; simp [LengthFormat.extra_bytes, h1, h2]
  refine ⟨by rw [FrameHeader.len, hext], ?_⟩
  rw [FrameHeader.len]
  rcases hm : h.mask with _ | k
  · by_cases h1 : L < 126
    · simp [FrameHeader.format, for_length_u8 h1, LengthFormat.extra_bytes, hm]
    · by_cases h2 : L < 65536
      · simp [FrameHeader.format, for_length_u16 (by omega) h2,
          LengthFormat.extra_bytes, hm, natToBeBytes_length]
      · have h64 : LengthFormat.for_length L = .U64 := for_length_u64 (by omega)
        simp [FrameHeader.format, h64, LengthFormat.extra_bytes, hm,
          natToBeBytes_length]
  · by_cases h1 : L < 126
    · simp [FrameHeader.format, for_length_u8 h1, LengthFormat.extra_bytes, hm,
        MaskKey.toList]
    · by_cases h2 : L < 65536
      · simp [FrameHeader.format, for_length_u16 (by omega) h2,
          LengthFormat.extra_bytes, hm, natToBeBytes_length, MaskKey.toList]
      · have h64 : LengthFormat.for_length L = .U64 := for_length_u64 (by omega)
        simp [FrameHeader.format, h64, LengthFormat.extra_bytes, hm,
          natToBeBytes_length, MaskKey.toList]

/-- Claim C6: masking is self-inverse — applying `apply_mask` twice with the
same key (and the same starting index 0) restores the original buffer. -/
theorem frame_c6_mask_involutive (buf : List Nat) (mask : MaskKey) :
    apply_mask (apply_mask buf mask) mask = buf :=
  applyMaskFrom_involutive mask buf 0

/-- Claim C7: `apply_mask` XORs the byte at each index `i` with
`key[i mod 4]`; in particular the canonical RFC 6455 example unmasks to
"Hello". -/
theorem frame_c7_mask_xor :
    (∀ (buf : List Nat) (mask : MaskKey) (i : Nat), i < buf.length →
        (apply_mask buf mask).getD i 0 = buf.getD i 0 ^^^ mask.get (i % 4))
    ∧ apply_mask [0x7f, 0x9f, 0x4d, 0x51, 0x58] ⟨0x37, 0xfa, 0x21, 0x3d⟩
        = [0x48, 0x65, 0x6c, 0x6c, 0x6f] := by
  constructor
  · intro buf mask i hi
    have h2 := applyMaskFrom_getD mask buf 0 i hi
    rw [and_three_eq_mod_four, Nat.zero_add] at h2
    exact h2
  · decide

theorem frame_c7_witness :
    (0 : Nat) < ([0x7f, 0x9f, 0x4d, 0x51, 0x58] : List Nat).length
    ∧ (apply_mask [0x7f, 0x9f, 0x4d, 0x51, 0x58] ⟨0x37, 0xfa, 0x21, 0x3d⟩).getD 0 0
        = ([0x7f, 0x9f, 0x4d, 0x51, 0x58] : List Nat).getD 0 0
            ^^^ MaskKey.get ⟨0x37, 0xfa, 0x21, 0x3d⟩ (0 % 4) :=
  ⟨by decide, frame_c7_mask_xor.1 _ _ 0 (by decide)⟩

/-- Claim C8: the 4-bit wire value and the opcode union are in bijection —
decode-then-encode is the identity on bytes 0–15, and encode-then-decode is
the identity on opcodes whose `Reserved` payloads are in range. -/
theorem frame_c8_opcode_bijection :
    (∀ b, b < 16 → (OpCode.fromByte b).map OpCode.toByte = some b)
    ∧ ∀ op : OpCode, op.wf → OpCode.fromByte op.toByte = some op := by
  constructor
  · decide
  · intro op hwf
    cases op with
    | Data d =>
      cases d with
      | Continue => rfl
      | Text => rfl
      | Binary => rfl
      | Reserved i =>
        obtain ⟨ha, hb⟩ := hwf
        interval_cases i <;> rfl
    | Control c =>
      cases c with
      | Close => rfl
      | Ping => rfl
      | Pong => rfl
      | Reserved i =>
        obtain ⟨ha, hb⟩ := hwf
        interval_cases i <;> rfl

theorem frame_c8_witness :
    ((5 : Nat) < 16 ∧ (OpCode.fromByte 5).map OpCode.toByte = some 5)
    ∧ OpCode.fromByte (OpCode.toByte (.Control (.Reserved 12)))
        = some (.Control (.Reserved 12)) :=
  ⟨⟨by decide, frame_c8_opcode_bijection.1 5 (by decide)⟩,
   frame_c8_opcode_bijection.2 (.Control (.Reserved 12)) ⟨by omega, by omega⟩⟩

/-- Claim C3: constructing an `OpCode` from a byte masked to 4 bits never
reaches the out-of-range `panic!` arm, and `FrameHeader::parse` — the only
call site of `OpCode::from`, which masks with `& 0b0000_1111` first — can
never panic, for any input stream. -/
theorem frame_c3_no_panic :
    (∀ b : Nat, (OpCode.fromByte (b &&& 15)).isSome = true)
    ∧ ∀ s : ByteStream, FrameHeader.parse s ≠ .panic := by
  constructor
  · intro b
    exact fromByte_isSome_of_lt _ (and_fifteen_lt b)
  · intro s hp
    unfold FrameHeader.parse at hp
    split at hp
    · exact absurd hp (by simp)
    · split at hp
      · exact absurd hp (by simp)
      · exact parseAfterHead_ne_panic _ _ _ hp

/-- Claim C10: parse is not atomic on the no-frame path — whenever
`FrameHeader::parse` returns `Ok(None)` after the initial 2-byte read
succeeded, everything it read (the 2 header bytes, any length-extension
bytes, any partial mask key) stays consumed: the stream it hands back is
empty, so a later parse of the same stream never sees those bytes again. -/
theorem frame_c10_consumed (s s2 : ByteStream) (hs : 2 ≤ s.data.length)
    (hp : FrameHeader.parse s = .ok none s2) : s2.data = [] := by
  obtain ⟨d, f⟩ := s
  rcases d with _ | ⟨a, _ | ⟨b, t⟩⟩
  · simp at hs
  · simp at hs
  · rw [parse_cons] at hp
    exact parseAfterHead_ok_none a b ⟨t, f⟩ s2 hp

theorem frame_c10_witness :
    (2 ≤ (ByteStream.mk [129, 126, 7] false).data.length
      ∧ FrameHeader.parse ⟨[129, 126, 7], false⟩ = .ok none ⟨[], false⟩)
    ∧ (ByteStream.mk [] false).data = [] :=
  ⟨⟨by decide, by decide⟩,
   frame_c10_consumed ⟨[129, 126, 7], false⟩ ⟨[], false⟩ (by decide) (by decide)⟩

/-- Claim C1 (code bug): the frame round-trip loses the reserved bits.
`FrameHeader::format` writes the first byte as `opcode | FIN` only
(frame.rs line 211) and never ORs in `rsv1`/`rsv2`/`rsv3`, so formatting a
header with `rsv1 = true` and parsing the produced bytes yields a header
with `rsv1 = false`: the headers are not structurally equal, although the
mask key round-trips and unmasking the payload bytes restores the payload. -/
theorem frame_c1_rsv_bits_lost :
    FrameHeader.parse
        ⟨Frame.format ⟨⟨true, true, false, false, .Data .Text, some ⟨1, 2, 3, 4⟩⟩,
          [72, 105]⟩, false⟩
      = .ok (some (⟨true, false, false, false, .Data .Text, some ⟨1, 2, 3, 4⟩⟩, 2))
          ⟨apply_mask [72, 105] ⟨1, 2, 3, 4⟩, false⟩
    ∧ apply_mask (apply_mask [72, 105] ⟨1, 2, 3, 4⟩) ⟨1, 2, 3, 4⟩ = [72, 105]
    ∧ (⟨true, false, false, false, .Data .Text, some ⟨1, 2, 3, 4⟩⟩ : FrameHeader)
        ≠ ⟨true, true, false, false, .Data .Text, some ⟨1, 2, 3, 4⟩⟩ := by
  decide

end WebSocket
